import Mathlib

/-!
# miniasync, `examples/basic/basic.cpp`: the `async_print` future

A shallow embedding of the three-step future of the example and of the
polling loop of `main`.

Modelling decisions.

* `std::atomic<int>` is an `Int` with two's-complement wrap-around on
  `fetch_add`; `uint64_t we_are_waiting` is a `Nat` (`true` is `1`, `false`
  is `0`).
* `std::thread t` is `Option Nat`: `some k` is a joinable handle on the
  worker thread number `k`, `none` is a handle that is not joinable.
* The worker threads live next to the future's data, as the list of their
  program counters.  The body of the lambda has two writes,
  `data->we_are_waiting = false` and `ptr->fetch_add(1)`; each is one step.
* The lambda captures the shared counter by value (`ptr = data->i`) and the
  local pointer `data` of `async_print_impl` by reference (`&data`).  That
  local is dead once the poll that started the worker has returned, so the
  write of line 59 goes through a dangling reference: it reaches the flag of
  the future only when the word it reads there still is the pointer to the
  future's data.  Every worker step therefore carries a boolean `lands`, which
  says whether the write of line 59 reaches the flag; when it does not, the
  flag of the future keeps its value.  The increment of line 62 goes through
  `ptr` and always reaches the counter.
* A call of `async_print_impl` is one atomic step.  Its result records how the
  call ends: a normal `return`, `std::thread::join` on a handle that is not
  joinable (it throws `std::system_error`), `join` on a worker that is still
  active (the call waits), or the final `assert(0)`.
-/

namespace Miniasync

/-- Modelled from the spec: `enum future_state` is declared in `libminiasync.h`,
which is not part of the example; the step function only ever returns the two
values `FUTURE_STATE_RUNNING` and `FUTURE_STATE_COMPLETE`. -/
inductive future_state where
  | FUTURE_STATE_RUNNING
  | FUTURE_STATE_COMPLETE
  deriving DecidableEq, Repr

/-- Program counter of the lambda run by the worker thread (lines 54-63):
`sleeping` before the statement `data->we_are_waiting = false` of line 59,
`cleared` between that statement and `ptr->fetch_add(1)`, `finished` after the
increment. -/
inductive WorkerPc where
  | sleeping
  | cleared
  | finished
  deriving DecidableEq, Repr

/-- The `struct async_print_data` of lines 21-26. -/
structure async_print_data where
  value : Nat
  i : Int
  we_are_waiting : Nat
  t : Option Nat
  deriving DecidableEq, Repr

/-- A location that a notifier can watch: the field `we_are_waiting` of the
future whose context lives at address `ctx`. -/
inductive Addr where
  | we_are_waiting (ctx : Nat)
  deriving DecidableEq, Repr

/-- Modelled from the spec: `struct future_notifier` is declared in
`libminiasync.h`; the example uses only `poller.ptr_to_monitor`, the address
the driver watches.  `none` is the slot before anything was stored in it. -/
structure future_notifier where
  ptr_to_monitor : Option Addr
  deriving DecidableEq, Repr

/-- One future of type `async_print_fut` at address `ctx`, with the worker
threads that have been started for it. -/
structure Sys where
  ctx : Nat
  data : async_print_data
  threads : List WorkerPc
  deriving DecidableEq, Repr

/-- How a call of `async_print_impl` ends. -/
inductive Outcome where
  | returned (st : future_state)
  | join_error
  | join_blocked
  | assert_failed
  deriving DecidableEq, Repr

/-- What a call of `async_print_impl` leaves behind. -/
structure PollResult where
  outcome : Outcome
  sys : Sys
  notifier : future_notifier
  deriving DecidableEq, Repr

/-- The `std::atomic<int>::fetch_add`: addition on 32-bit two's-complement
integers; the value stored afterwards. -/
def fetch_add (x d : Int) : Int :=
  (x + d + 2147483648) % 4294967296 - 2147483648

/-- The `std::thread::joinable`. -/
def joinable (t : Option Nat) : Bool :=
  t.isSome

/-- The assignment `data->t = std::thread(...)` of line 54: a new worker
starts at the top of the lambda and `t` becomes a handle on it. -/
def spawn (s : Sys) : Sys :=
  { s with data := { s.data with t := some s.threads.length },
           threads := s.threads ++ [WorkerPc.sleeping] }

/-- The step function `async_print_impl` (lines 35-73). -/
def async_print_impl (s : Sys) (_notifier : future_notifier) : PollResult :=
  let i_value := s.data.i
  let notifier : future_notifier := { ptr_to_monitor := some (Addr.we_are_waiting s.ctx) }
  if i_value = 0 then
    { outcome := Outcome.returned future_state.FUTURE_STATE_RUNNING,
      sys := { s with data := { s.data with i := fetch_add s.data.i 1 } },
      notifier := notifier }
  else if i_value = 1 then
    let s1 : Sys := { s with data := { s.data with we_are_waiting := 1 } }
    let s2 : Sys := if joinable s1.data.t then s1 else spawn s1
    { outcome := Outcome.returned future_state.FUTURE_STATE_RUNNING,
      sys := s2,
      notifier := notifier }
  else if i_value = 2 then
    match s.data.t with
    | none => { outcome := Outcome.join_error, sys := s, notifier := notifier }
    | some k =>
      if s.threads.get? k = some WorkerPc.finished then
        { outcome := Outcome.returned future_state.FUTURE_STATE_COMPLETE,
          sys := { s with data := { s.data with t := none } },
          notifier := notifier }
      else
        { outcome := Outcome.join_blocked, sys := s, notifier := notifier }
  else
    { outcome := Outcome.assert_failed, sys := s, notifier := notifier }

/-- The constructor `async_print` (lines 75-86): the data of the new future. -/
def async_print (value : Nat) : async_print_data :=
  { value := value, i := 0, we_are_waiting := 0, t := none }

/-- The future returned by `async_print value`, placed at address `ctx`; no
worker has been started. -/
def init (ctx value : Nat) : Sys :=
  { ctx := ctx, data := async_print value, threads := [] }

/-- One step of worker thread `k` (lines 55-62): the statement
`data->we_are_waiting = false`, then `ptr->fetch_add(1)`.  The first goes
through the reference to the local `data` of the poll that started the
worker (line 54, `&data`), which is dead by then: with `lands` the word read
there is still the pointer to the future's data and the flag of the future is
cleared, without it the write goes elsewhere and the flag keeps its value.
The second goes through `ptr`, captured by value.  A thread that does not
exist or has finished does nothing. -/
def worker_step (s : Sys) (k : Nat) (lands : Bool) : Sys :=
  match s.threads.get? k with
  | some WorkerPc.sleeping =>
    { s with data := { s.data with
                       we_are_waiting := if lands then 0 else s.data.we_are_waiting },
             threads := s.threads.set k WorkerPc.cleared }
  | some WorkerPc.cleared =>
    { s with data := { s.data with i := fetch_add s.data.i 1 },
             threads := s.threads.set k WorkerPc.finished }
  | _ => s

/-- What happens next: a call of `async_print_impl`, or a step of worker `k`,
with whether its write of line 59 reaches the flag of the future. -/
inductive Action where
  | poll
  | worker (k : Nat) (lands : Bool)
  deriving DecidableEq, Repr

/-- The notifier handed to a poll whose notifier nobody reads. -/
def blank : future_notifier :=
  { ptr_to_monitor := none }

/-- One step of the future and its workers. -/
def step (s : Sys) : Action → Sys
  | Action.poll => (async_print_impl s blank).sys
  | Action.worker k lands => worker_step s k lands

/-- The state after a sequence of steps. -/
def exec (s : Sys) : List Action → Sys
  | [] => s
  | a :: as => exec (step s a) as

/-- The result of the poll made in state `s`. -/
def poll_outcome (s : Sys) : Outcome :=
  (async_print_impl s blank).outcome

/-- Sum of `c` over the steps of an execution, `c` seeing the state before
each step and the step taken. -/
def tally (c : Sys → Action → Nat) : Sys → List Action → Nat
  | _, [] => 0
  | s, a :: as => c s a + tally c (step s a) as

/-- Counts a step that starts a worker thread. -/
def is_spawn (s : Sys) (a : Action) : Nat :=
  if (step s a).threads.length = s.threads.length then 0 else 1

/-- Counts a poll that returns `FUTURE_STATE_COMPLETE`. -/
def is_complete (s : Sys) (a : Action) : Nat :=
  if a = Action.poll ∧ poll_outcome s = Outcome.returned future_state.FUTURE_STATE_COMPLETE
  then 1 else 0

/-- Counts a step over which `we_are_waiting` goes from true to false. -/
def is_flag_clear (s : Sys) (a : Action) : Nat :=
  if s.data.we_are_waiting ≠ 0 ∧ (step s a).data.we_are_waiting = 0 then 1 else 0

/-- Counts a step that joins the worker: the handle was joinable before and is
not after. -/
def is_join (s : Sys) (a : Action) : Nat :=
  if joinable s.data.t = true ∧ joinable (step s a).data.t = false then 1 else 0

/-- The part of a state that the steps read and write: counter, flag, thread
handle, workers. -/
def core (s : Sys) : Int × Nat × Option Nat × List WorkerPc :=
  (s.data.i, s.data.we_are_waiting, s.data.t, s.threads)

/-- The shapes a future of `async_print` goes through. -/
def shapes : List (Int × Nat × Option Nat × List WorkerPc) :=
  [ (0, 0, none, []),
    (1, 0, none, []),
    (1, 1, some 0, [WorkerPc.sleeping]),
    (1, 0, some 0, [WorkerPc.cleared]),
    (1, 1, some 0, [WorkerPc.cleared]),
    (2, 0, some 0, [WorkerPc.finished]),
    (2, 1, some 0, [WorkerPc.finished]),
    (2, 0, none, [WorkerPc.finished]),
    (2, 1, none, [WorkerPc.finished]) ]

/-- The invariant of the executions that start from `async_print`. -/
def Inv (s : Sys) : Prop :=
  core s ∈ shapes

/-- The state at address `c` with value `v` and core `x`. -/
def of_core (c v : Nat) (x : Int × Nat × Option Nat × List WorkerPc) : Sys :=
  ⟨c, ⟨v, x.1, x.2.1, x.2.2.1⟩, x.2.2.2⟩

/-- Number of workers that are past the statement of line 59. -/
def past_clear (s : Sys) : Nat :=
  (s.threads.filter (fun p => decide (p ≠ WorkerPc.sleeping))).length

/-- Is the future past its join: counter 2 with a handle that is not joinable. -/
def past_join (s : Sys) : Nat :=
  if s.data.i = 2 ∧ s.data.t = none then 1 else 0

/-- The read `*ntfr.poller.ptr_to_monitor` of line 104 in a memory that holds
the future `s`: the value read, or `none` for a pointer that is not the address
of a field of `s`. -/
def deref (s : Sys) : Option Addr → Option Nat
  | some (Addr.we_are_waiting c) => if c = s.ctx then some s.data.we_are_waiting else none
  | none => none

/-- Modelled from the spec: `future_poll` is defined in `libminiasync.h`, which
is not part of the example; per the spec one poll call runs the step function
of the future once and reports the state it returns. -/
def future_poll (s : Sys) (notifier : future_notifier) : PollResult :=
  async_print_impl s notifier

/-- Where the thread of `main` stands in the loop of lines 102-109: about to
call `future_poll`, spinning on the monitored location with `ret` in hand,
out of the loop, or ended by an error inside the poll. -/
inductive DriverPc where
  | polling
  | waiting (ret : future_state)
  | exited
  | aborted
  deriving DecidableEq, Repr

/-- The variables of `main` that the loop uses: the future `print_5` (with its
workers), the notifier `ntfr`, and the position in the loop. -/
structure MainState where
  print_5 : Sys
  ntfr : future_notifier
  pc : DriverPc
  deriving DecidableEq, Repr

/-- One step of the thread of `main`: the call of line 103, or one read of the
monitored location in line 104 followed, when it reads false, by the test of
line 107. -/
def driver_step (m : MainState) : MainState :=
  match m.pc with
  | DriverPc.polling =>
    let r := future_poll m.print_5 m.ntfr
    match r.outcome with
    | Outcome.returned ret => { print_5 := r.sys, ntfr := r.notifier, pc := DriverPc.waiting ret }
    | Outcome.join_blocked => m
    | _ => { print_5 := r.sys, ntfr := r.notifier, pc := DriverPc.aborted }
  | DriverPc.waiting ret =>
    match deref m.print_5 m.ntfr.ptr_to_monitor with
    | some w =>
      if w ≠ 0 then m
      else if ret = future_state.FUTURE_STATE_COMPLETE then { m with pc := DriverPc.exited }
      else { m with pc := DriverPc.polling }
    | none => { m with pc := DriverPc.aborted }
  | DriverPc.exited => m
  | DriverPc.aborted => m

/-- What happens next while `main` runs: a step of the thread of `main`, or a
step of worker `k`, with whether its write of line 59 reaches the flag. -/
inductive MainAction where
  | driver
  | worker (k : Nat) (lands : Bool)
  deriving DecidableEq, Repr

/-- One step of `main` and the workers of `print_5`. -/
def main_step (m : MainState) : MainAction → MainState
  | MainAction.driver => driver_step m
  | MainAction.worker k lands => { m with print_5 := worker_step m.print_5 k lands }

/-- The state of `main` after a sequence of steps. -/
def main_exec (m : MainState) : List MainAction → MainState
  | [] => m
  | a :: as => main_exec (main_step m a) as

/-- The state of `main` at line 101: `print_5 = async_print((void *)0x5)` (at
address 0), `ntfr` declared and not yet written. -/
def main_init : MainState :=
  { print_5 := init 0 5, ntfr := blank, pc := DriverPc.polling }

/-- The loop of `main` (lines 97-109) run under a schedule. -/
def main (sched : List MainAction) : MainState :=
  main_exec main_init sched

/-- Counts a step of `main` that executes the branch `i_value == 1` of
`async_print_impl`, the one that prints "We should enter here just once!". -/
def is_enter (m : MainState) (a : MainAction) : Nat :=
  if a = MainAction.driver ∧ m.pc = DriverPc.polling ∧ m.print_5.data.i = 1 then 1 else 0

/-- Sum of `c` over the steps of a run of `main`. -/
def main_tally (c : MainState → MainAction → Nat) : MainState → List MainAction → Nat
  | _, [] => 0
  | m, a :: as => c m a + main_tally c (main_step m a) as

/-- The schedule on which the branch `i_value == 1` runs twice: two polls with
the wait between them, the poll that starts the worker, the worker clearing
the flag, the wait seeing it, and a poll before the worker has incremented. -/
def racy_schedule : List MainAction :=
  [MainAction.driver, MainAction.driver, MainAction.driver, MainAction.worker 0 true,
   MainAction.driver, MainAction.driver]

/-- While `main` spins on the monitored location, the notifier holds the
address of the flag of `print_5`. -/
def Watching (m : MainState) : Prop :=
  ∀ ret, m.pc = DriverPc.waiting ret →
    m.ntfr.ptr_to_monitor = some (Addr.we_are_waiting m.print_5.ctx)

/-- The state of `main` with the loop at `pc`, the notifier written or not,
and `print_5` of core `x`. -/
def main_state (pc : DriverPc) (armed : Bool) (x : Int × Nat × Option Nat × List WorkerPc) :
    MainState :=
  { print_5 := of_core 0 5 x,
    ntfr := if armed then { ptr_to_monitor := some (Addr.we_are_waiting 0) } else blank,
    pc := pc }

/-- The states `main` goes through, under every schedule, each with the
number of times the branch `i_value == 1` has run when `main` is there. -/
def main_runs : List (MainState × Nat) :=
  [ (main_state DriverPc.polling false (0, 0, none, []), 0),
    (main_state (DriverPc.waiting future_state.FUTURE_STATE_RUNNING) true (1, 0, none, []), 0),
    (main_state DriverPc.polling true (1, 0, none, []), 0),
    (main_state (DriverPc.waiting future_state.FUTURE_STATE_RUNNING) true
      (1, 1, some 0, [WorkerPc.sleeping]), 1),
    (main_state (DriverPc.waiting future_state.FUTURE_STATE_RUNNING) true
      (1, 0, some 0, [WorkerPc.cleared]), 1),
    (main_state (DriverPc.waiting future_state.FUTURE_STATE_RUNNING) true
      (1, 1, some 0, [WorkerPc.cleared]), 1),
    (main_state DriverPc.polling true (1, 0, some 0, [WorkerPc.cleared]), 1),
    (main_state (DriverPc.waiting future_state.FUTURE_STATE_RUNNING) true
      (1, 1, some 0, [WorkerPc.cleared]), 2),
    (main_state (DriverPc.waiting future_state.FUTURE_STATE_RUNNING) true
      (2, 1, some 0, [WorkerPc.finished]), 1),
    (main_state (DriverPc.waiting future_state.FUTURE_STATE_RUNNING) true
      (2, 1, some 0, [WorkerPc.finished]), 2),
    (main_state (DriverPc.waiting future_state.FUTURE_STATE_RUNNING) true
      (2, 0, some 0, [WorkerPc.finished]), 1),
    (main_state DriverPc.polling true (2, 0, some 0, [WorkerPc.finished]), 1),
    (main_state (DriverPc.waiting future_state.FUTURE_STATE_COMPLETE) true
      (2, 0, none, [WorkerPc.finished]), 1),
    (main_state DriverPc.exited true (2, 0, none, [WorkerPc.finished]), 1) ]

/-- The two states in which `main` spins for ever: the flag is true and the
worker is past the statement that clears it. -/
def stuck_states : List MainState :=
  [ main_state (DriverPc.waiting future_state.FUTURE_STATE_RUNNING) true
      (1, 1, some 0, [WorkerPc.cleared]),
    main_state (DriverPc.waiting future_state.FUTURE_STATE_RUNNING) true
      (2, 1, some 0, [WorkerPc.finished]) ]

/-! ## The invariant -/

theorem inv_init (c v : Nat) : Inv (init c v) := by
  simp [Inv, core, shapes, init, async_print]

theorem inv_elim (P : Sys → Prop)
    (hP : ∀ c v, ∀ x ∈ shapes, P (of_core c v x)) (s : Sys) (h : Inv s) : P s := by
  obtain ⟨c, ⟨v, i, f, t⟩, th⟩ := s
  exact hP c v (i, f, t, th) h

theorem step_elim (P : Sys → Action → Prop)
    (hP : ∀ c v, ∀ x ∈ shapes,
      P (of_core c v x) Action.poll ∧ P (of_core c v x) (Action.worker 0 true) ∧
        P (of_core c v x) (Action.worker 0 false) ∧
        ∀ k b, P (of_core c v x) (Action.worker (k + 1) b))
    (s : Sys) (a : Action) (h : Inv s) : P s a := by
  obtain ⟨c, ⟨v, i, f, t⟩, th⟩ := s
  have hx := hP c v (i, f, t, th) h
  rcases a with _ | ⟨k, b⟩
  · exact hx.1
  · rcases k with _ | k
    · cases b
      · exact hx.2.2.1
      · exact hx.2.1
    · exact hx.2.2.2 k b

theorem inv_step (s : Sys) (a : Action) (h : Inv s) : Inv (step s a) := by
  refine step_elim (fun s a => Inv (step s a)) ?_ s a h
  intro c v x hx
  fin_cases hx <;>
    simp [Inv, core, shapes, of_core, step, async_print_impl, worker_step, fetch_add,
      joinable, spawn]

theorem inv_exec (acts : List Action) : ∀ s, Inv s → Inv (exec s acts) := by
  induction acts with
  | nil => intro s h; exact h
  | cons a as ih => intro s h; exact ih _ (inv_step s a h)

theorem exec_append (as bs : List Action) : ∀ s, exec s (as ++ bs) = exec (exec s as) bs := by
  induction as with
  | nil => intro s; rfl
  | cons a as ih => intro s; exact ih (step s a)

/-! ## Counting steps through a potential -/

theorem tally_potential (c : Sys → Action → Nat) (φ : Sys → Nat)
    (hstep : ∀ s a, Inv s → c s a + φ s = φ (step s a)) (acts : List Action) :
    ∀ s, Inv s → tally c s acts + φ s = φ (exec s acts) := by
  induction acts with
  | nil => intro s _; simp [tally, exec]
  | cons a as ih =>
    intro s h
    have h1 := hstep s a h
    have h2 := ih (step s a) (inv_step s a h)
    simp only [tally, exec]
    omega

theorem tally_bound (c : Sys → Action → Nat) (φ : Sys → Nat)
    (hstep : ∀ s a, Inv s → c s a + φ s ≤ φ (step s a)) (acts : List Action) :
    ∀ s, Inv s → tally c s acts + φ s ≤ φ (exec s acts) := by
  induction acts with
  | nil => intro s _; simp [tally, exec]
  | cons a as ih =>
    intro s h
    have h1 := hstep s a h
    have h2 := ih (step s a) (inv_step s a h)
    simp only [tally, exec]
    omega

theorem spawn_potential (s : Sys) (a : Action) (h : Inv s) :
    is_spawn s a + s.threads.length = (step s a).threads.length := by
  refine step_elim (fun s a => is_spawn s a + s.threads.length = (step s a).threads.length)
    ?_ s a h
  intro c v x hx
  fin_cases hx <;>
    simp [is_spawn, of_core, step, async_print_impl, worker_step, fetch_add, joinable, spawn]

theorem flag_clear_potential (s : Sys) (a : Action) (h : Inv s) :
    is_flag_clear s a + past_clear s ≤ past_clear (step s a) := by
  refine step_elim (fun s a => is_flag_clear s a + past_clear s ≤ past_clear (step s a))
    ?_ s a h
  intro c v x hx
  fin_cases hx <;>
    simp [is_flag_clear, past_clear, of_core, step, async_print_impl, worker_step, fetch_add,
      joinable, spawn]

theorem complete_potential (s : Sys) (a : Action) (h : Inv s) :
    is_complete s a + past_join s = past_join (step s a) := by
  refine step_elim (fun s a => is_complete s a + past_join s = past_join (step s a))
    ?_ s a h
  intro c v x hx
  fin_cases hx <;>
    simp [is_complete, poll_outcome, past_join, of_core, step, async_print_impl, worker_step,
      fetch_add, joinable, spawn]

theorem join_potential (s : Sys) (a : Action) (h : Inv s) :
    is_join s a + past_join s = past_join (step s a) := by
  refine step_elim (fun s a => is_join s a + past_join s = past_join (step s a))
    ?_ s a h
  intro c v x hx
  fin_cases hx <;>
    simp [is_join, past_join, of_core, step, async_print_impl, worker_step,
      fetch_add, joinable, spawn]

/-! ## What the invariant gives in one state -/

theorem inv_threads_le_one (s : Sys) (h : Inv s) : s.threads.length ≤ 1 := by
  refine inv_elim (fun s => s.threads.length ≤ 1) ?_ s h
  intro c v x hx
  fin_cases hx <;> simp [of_core]

theorem inv_counter_range (s : Sys) (h : Inv s) :
    s.data.i = 0 ∨ s.data.i = 1 ∨ s.data.i = 2 := by
  refine inv_elim (fun s => s.data.i = 0 ∨ s.data.i = 1 ∨ s.data.i = 2) ?_ s h
  intro c v x hx
  fin_cases hx <;> simp [of_core]

theorem inv_counter_step (s : Sys) (a : Action) (h : Inv s) :
    (step s a).data.i = s.data.i ∨ (step s a).data.i = s.data.i + 1 := by
  refine step_elim
    (fun s a => (step s a).data.i = s.data.i ∨ (step s a).data.i = s.data.i + 1) ?_ s a h
  intro c v x hx
  fin_cases hx <;>
    simp [of_core, step, async_print_impl, worker_step, fetch_add, joinable, spawn]

theorem inv_poll_returns_or_throws (s : Sys) (h : Inv s) :
    poll_outcome s ≠ Outcome.assert_failed ∧ poll_outcome s ≠ Outcome.join_blocked := by
  refine inv_elim
    (fun s => poll_outcome s ≠ Outcome.assert_failed ∧ poll_outcome s ≠ Outcome.join_blocked)
    ?_ s h
  intro c v x hx
  fin_cases hx <;> simp [of_core, poll_outcome, async_print_impl]

theorem inv_past_join_le_one (s : Sys) : past_join s ≤ 1 := by
  unfold past_join
  split <;> omega

theorem inv_past_join_facts (s : Sys) (h : Inv s) (hj : past_join s = 1) :
    past_clear s = 1 ∧ poll_outcome s = Outcome.join_error := by
  revert hj
  refine inv_elim
    (fun s => past_join s = 1 → past_clear s = 1 ∧ poll_outcome s = Outcome.join_error)
    ?_ s h
  intro c v x hx
  fin_cases hx <;> simp [of_core, past_join, past_clear, poll_outcome, async_print_impl]

theorem inv_before_join (s : Sys) (h : Inv s) (hi : s.data.i = 2) (hj : past_join s = 0) :
    s.data.t = some 0 ∧ s.threads = [WorkerPc.finished] ∧
      poll_outcome s = Outcome.returned future_state.FUTURE_STATE_COMPLETE ∧
      (step s Action.poll).data.t = none := by
  revert hi hj
  refine inv_elim
    (fun s => s.data.i = 2 → past_join s = 0 →
      s.data.t = some 0 ∧ s.threads = [WorkerPc.finished] ∧
      poll_outcome s = Outcome.returned future_state.FUTURE_STATE_COMPLETE ∧
      (step s Action.poll).data.t = none)
    ?_ s h
  intro c v x hx
  fin_cases hx <;> simp [of_core, past_join, poll_outcome, step, async_print_impl]

theorem inv_complete_joins (s : Sys) (h : Inv s)
    (hc : poll_outcome s = Outcome.returned future_state.FUTURE_STATE_COMPLETE) :
    past_join s = 0 ∧ past_join (step s Action.poll) = 1 := by
  revert hc
  refine inv_elim
    (fun s => poll_outcome s = Outcome.returned future_state.FUTURE_STATE_COMPLETE →
      past_join s = 0 ∧ past_join (step s Action.poll) = 1)
    ?_ s h
  intro c v x hx
  fin_cases hx <;> simp [of_core, past_join, poll_outcome, step, async_print_impl, fetch_add, joinable, spawn]

/-! ## The driver of `main` -/

theorem worker_step_ctx (s : Sys) (k : Nat) (b : Bool) : (worker_step s k b).ctx = s.ctx := by
  unfold worker_step
  split <;> rfl

theorem poll_notifier (s : Sys) (n : future_notifier) :
    (async_print_impl s n).notifier.ptr_to_monitor = some (Addr.we_are_waiting s.ctx) ∧
      (async_print_impl s n).sys.ctx = s.ctx := by
  unfold async_print_impl
  simp only
  split_ifs
  · exact ⟨rfl, rfl⟩
  · exact ⟨rfl, rfl⟩
  · simp [spawn]
  · split
    · exact ⟨rfl, rfl⟩
    · split_ifs
      · exact ⟨rfl, rfl⟩
      · exact ⟨rfl, rfl⟩
  · exact ⟨rfl, rfl⟩

theorem watching_step (m : MainState) (a : MainAction) (h : Watching m) :
    Watching (main_step m a) := by
  rcases a with _ | ⟨k, b⟩
  · obtain ⟨s, n, pc⟩ := m
    have hn := poll_notifier s n
    rcases pc with _ | r | _ | _
    · simp only [main_step, driver_step, future_poll]
      intro ret
      split
      · intro _; exact hn.1.trans (by rw [hn.2])
      · intro hpc; cases hpc
      · intro hpc; cases hpc
    · simp only [main_step, driver_step]
      intro ret
      split
      · split_ifs
        · exact h ret
        · intro hpc; cases hpc
        · intro hpc; cases hpc
      · intro hpc; cases hpc
    · exact h
    · exact h
  · intro ret hpc
    simpa [main_step, worker_step_ctx] using h ret hpc

theorem watching_exec (sched : List MainAction) :
    ∀ m, Watching m → Watching (main_exec m sched) := by
  induction sched with
  | nil => intro m h; exact h
  | cons a as ih => intro m h; exact ih _ (watching_step m a h)

theorem watching_init : Watching main_init := by
  intro ret hpc
  cases hpc

theorem main_exec_append (as bs : List MainAction) :
    ∀ m, main_exec m (as ++ bs) = main_exec (main_exec m as) bs := by
  induction as with
  | nil => intro m; rfl
  | cons a as ih => intro m; exact ih (main_step m a)

theorem main_runs_step (p : MainState × Nat) (hp : p ∈ main_runs) (a : MainAction) :
    (main_step p.1 a, p.2 + is_enter p.1 a) ∈ main_runs := by
  rcases a with _ | ⟨k, b⟩
  · revert p
    decide
  · rcases k with _ | k
    · cases b
      · revert p
        decide
      · revert p
        decide
    · fin_cases hp <;>
        simp [main_runs, main_state, of_core, main_step, worker_step, is_enter]

theorem main_runs_exec (sched : List MainAction) :
    ∀ m n, (m, n) ∈ main_runs →
      (main_exec m sched, n + main_tally is_enter m sched) ∈ main_runs := by
  induction sched with
  | nil => intro m n hm; simpa [main_tally, main_exec] using hm
  | cons a as ih =>
    intro m n hm
    have h1 := main_runs_step (m, n) hm a
    have h2 := ih _ _ h1
    simp only [main_tally, main_exec]
    rw [← Nat.add_assoc]
    exact h2

theorem main_init_mem : (main_init, 0) ∈ main_runs := by
  decide

theorem stuck_states_step (m : MainState) (hm : m ∈ stuck_states) (a : MainAction) :
    main_step m a ∈ stuck_states := by
  rcases a with _ | ⟨k, b⟩
  · revert m
    decide
  · rcases k with _ | k
    · cases b
      · revert m
        decide
      · revert m
        decide
    · fin_cases hm <;>
        simp [stuck_states, main_state, of_core, main_step, worker_step]

theorem stuck_states_exec (sched : List MainAction) :
    ∀ m, m ∈ stuck_states → main_exec m sched ∈ stuck_states := by
  induction sched with
  | nil => intro m hm; exact hm
  | cons a as ih => intro m hm; exact ih _ (stuck_states_step m hm a)

/-- Every run of `main` in which a poll has returned COMPLETE (the loop is at
its last wait, or left) has executed the branch `i_value == 1` exactly once,
and no run executes it more than twice. -/
theorem main_enters_once_when_complete (sched : List MainAction) :
    main_tally is_enter main_init sched ≤ 2 ∧
      ((main sched).pc = DriverPc.waiting future_state.FUTURE_STATE_COMPLETE ∨
          (main sched).pc = DriverPc.exited →
        main_tally is_enter main_init sched = 1) := by
  have h := main_runs_exec sched main_init 0 main_init_mem
  have hall : ∀ p ∈ main_runs, p.2 ≤ 2 ∧
      (p.1.pc = DriverPc.waiting future_state.FUTURE_STATE_COMPLETE ∨
          p.1.pc = DriverPc.exited → p.2 = 1) := by
    decide
  have hm := hall _ h
  simp only [Nat.zero_add] at hm
  exact hm

/-- Claim C4: on the schedule `racy_schedule` of `main` (the driver polls again after the
worker has cleared the flag and before it has incremented the counter) the
branch `i_value == 1` of `async_print_impl` is executed twice, and whatever
happens afterwards `main` keeps spinning on the flag with `ret` equal to
`FUTURE_STATE_RUNNING`: it never leaves the loop. -/
theorem main_enters_twice_and_spins :
    main_tally is_enter main_init racy_schedule = 2 ∧
      (main racy_schedule).print_5.data.we_are_waiting = 1 ∧
      ∀ sched, (main (racy_schedule ++ sched)).pc =
          DriverPc.waiting future_state.FUTURE_STATE_RUNNING ∧
        (main (racy_schedule ++ sched)).print_5.data.we_are_waiting = 1 := by
  refine ⟨by decide, by decide, ?_⟩
  intro sched
  have h0 : main racy_schedule ∈ stuck_states := by decide
  have h := stuck_states_exec sched _ h0
  have hall : ∀ m ∈ stuck_states,
      m.pc = DriverPc.waiting future_state.FUTURE_STATE_RUNNING ∧
        m.print_5.data.we_are_waiting = 1 := by
    decide
  unfold main at h ⊢
  rw [main_exec_append]
  exact hall _ h

/-! ## The claims -/

/-- Claim C1: from the future returned by `async_print v` (counter 0, flag false, no
worker, handle not joinable) the first poll returns RUNNING and leaves the
counter at 1; the second poll, made before the worker has run, returns RUNNING,
leaves the counter at 1, sets the flag and starts the one worker; and if the
worker's first step has cleared the flag, then after its increment the counter
is 2, the flag is still false, and the next poll finds a joinable handle on a
finished worker, joins it and returns COMPLETE. -/
theorem scenario_poll_poll_worker_poll (c v : Nat) (lands later : Bool) :
    ((init c v).data.i = 0 ∧ (init c v).data.we_are_waiting = 0 ∧
      (init c v).data.t = none ∧ (init c v).threads = []) ∧
    (poll_outcome (init c v) = Outcome.returned future_state.FUTURE_STATE_RUNNING ∧
      (exec (init c v) [Action.poll]).data.i = 1 ∧
      (exec (init c v) [Action.poll]).threads = []) ∧
    (poll_outcome (exec (init c v) [Action.poll]) =
        Outcome.returned future_state.FUTURE_STATE_RUNNING ∧
      (exec (init c v) [Action.poll, Action.poll]).data.i = 1 ∧
      (exec (init c v) [Action.poll, Action.poll]).data.we_are_waiting = 1 ∧
      (exec (init c v) [Action.poll, Action.poll]).data.t = some 0 ∧
      (exec (init c v) [Action.poll, Action.poll]).threads = [WorkerPc.sleeping]) ∧
    ((exec (init c v) [Action.poll, Action.poll, Action.worker 0 lands]).data.we_are_waiting = 0 →
      (exec (init c v) [Action.poll, Action.poll, Action.worker 0 lands]).data.i = 1 ∧
      (exec (init c v) [Action.poll, Action.poll, Action.worker 0 lands,
        Action.worker 0 later]).data.i = 2 ∧
      (exec (init c v) [Action.poll, Action.poll, Action.worker 0 lands,
        Action.worker 0 later]).data.we_are_waiting = 0 ∧
      (exec (init c v) [Action.poll, Action.poll, Action.worker 0 lands,
        Action.worker 0 later]).data.t = some 0 ∧
      (exec (init c v) [Action.poll, Action.poll, Action.worker 0 lands,
        Action.worker 0 later]).threads = [WorkerPc.finished] ∧
      poll_outcome (exec (init c v) [Action.poll, Action.poll, Action.worker 0 lands,
        Action.worker 0 later]) = Outcome.returned future_state.FUTURE_STATE_COMPLETE ∧
      (exec (init c v) [Action.poll, Action.poll, Action.worker 0 lands,
        Action.worker 0 later, Action.poll]).data.t = none ∧
      (exec (init c v) [Action.poll, Action.poll, Action.worker 0 lands,
        Action.worker 0 later, Action.poll]).data.value = v) := by
  cases lands <;>
    simp [exec, step, init, async_print, async_print_impl, poll_outcome, worker_step,
      fetch_add, joinable, spawn]

/-- Witness of C1: the worker's write reaches the flag of the future. -/
theorem scenario_poll_poll_worker_poll_witness :
    (exec (init 0 5) [Action.poll, Action.poll, Action.worker 0 true]).data.we_are_waiting = 0 ∧
    (exec (init 0 5) [Action.poll, Action.poll, Action.worker 0 true,
      Action.worker 0 true]).data.i = 2 ∧
    poll_outcome (exec (init 0 5) [Action.poll, Action.poll, Action.worker 0 true,
      Action.worker 0 true]) = Outcome.returned future_state.FUTURE_STATE_COMPLETE :=
  ⟨by decide,
    ((scenario_poll_poll_worker_poll 0 5 true true).2.2.2 (by decide)).2.1,
    ((scenario_poll_poll_worker_poll 0 5 true true).2.2.2 (by decide)).2.2.2.2.2.1⟩

/-- Claim C2: along every execution from a future of `async_print` (polls and worker
steps in any order) the number of steps that start a worker equals the number
of worker threads, and it never exceeds 1. -/
theorem spawn_at_most_once (c v : Nat) (acts : List Action) :
    tally is_spawn (init c v) acts = (exec (init c v) acts).threads.length ∧
      tally is_spawn (init c v) acts ≤ 1 := by
  have h := tally_potential is_spawn (fun s => s.threads.length) spawn_potential acts
    (init c v) (inv_init c v)
  have hle := inv_threads_le_one _ (inv_exec acts _ (inv_init c v))
  have h0 : (init c v).threads.length = 0 := rfl
  simp only [h0] at h
  omega

/-- Claim C3: along every execution from a future of `async_print` at most one poll
returns COMPLETE, and once a poll has returned COMPLETE every later poll ends
in the error of `std::thread::join` on a handle that is not joinable: it
returns neither RUNNING nor COMPLETE. -/
theorem poll_after_complete_throws (c v : Nat) :
    (∀ acts, tally is_complete (init c v) acts ≤ 1) ∧
    (∀ acts later, poll_outcome (exec (init c v) acts) =
          Outcome.returned future_state.FUTURE_STATE_COMPLETE →
        poll_outcome (exec (init c v) (acts ++ Action.poll :: later)) = Outcome.join_error) := by
  constructor
  · intro acts
    have h := tally_potential is_complete past_join complete_potential acts
      (init c v) (inv_init c v)
    have hle := inv_past_join_le_one (exec (init c v) acts)
    omega
  · intro acts later hc
    have hinv := inv_exec acts _ (inv_init c v)
    have hj := (inv_complete_joins _ hinv hc).2
    have hinv1 := inv_step _ Action.poll hinv
    have h := tally_potential is_complete past_join complete_potential later _ hinv1
    have hle := inv_past_join_le_one (exec (step (exec (init c v) acts) Action.poll) later)
    have hinv2 := inv_exec later _ hinv1
    have hfin : past_join (exec (step (exec (init c v) acts) Action.poll) later) = 1 := by
      omega
    rw [exec_append]
    exact (inv_past_join_facts _ hinv2 hfin).2

/-- Witness of C3: the two polls after the one that returns COMPLETE. -/
theorem poll_after_complete_throws_witness :
    poll_outcome (exec (init 0 5)
        [Action.poll, Action.poll, Action.worker 0 true, Action.worker 0 true]) =
      Outcome.returned future_state.FUTURE_STATE_COMPLETE ∧
    poll_outcome (exec (init 0 5)
        ([Action.poll, Action.poll, Action.worker 0 true, Action.worker 0 true] ++
          Action.poll :: [Action.poll])) = Outcome.join_error :=
  ⟨by decide,
    (poll_after_complete_throws 0 5).2
      [Action.poll, Action.poll, Action.worker 0 true, Action.worker 0 true] [Action.poll] (by decide)⟩

/-- Along every execution from a future of `async_print` the flag goes from true
to false at most once. -/
theorem flag_cleared_at_most_once (c v : Nat) (acts : List Action) :
    tally is_flag_clear (init c v) acts ≤ 1 := by
  have hinv := inv_exec acts _ (inv_init c v)
  have hf := tally_bound is_flag_clear past_clear flag_clear_potential acts
    (init c v) (inv_init c v)
  have hlen := inv_threads_le_one _ hinv
  have hpc : past_clear (exec (init c v) acts) ≤ 1 := by
    unfold past_clear
    exact le_trans (List.length_filter_le _ _) hlen
  omega

/-- Claim C5: on the execution poll, poll, worker, worker, poll in which the worker's
write of line 59, made through the dead reference `&data`, does not reach the
flag of the future, the last poll returns COMPLETE and the flag has never gone
from true to false: it is set by the second poll and is still true at
the end. -/
theorem complete_without_flag_clear :
    poll_outcome (exec (init 0 5)
      [Action.poll, Action.poll, Action.worker 0 false, Action.worker 0 true]) =
        Outcome.returned future_state.FUTURE_STATE_COMPLETE ∧
    tally is_complete (init 0 5)
      [Action.poll, Action.poll, Action.worker 0 false, Action.worker 0 true, Action.poll] = 1 ∧
    tally is_flag_clear (init 0 5)
      [Action.poll, Action.poll, Action.worker 0 false, Action.worker 0 true, Action.poll] = 0 ∧
    (exec (init 0 5) [Action.poll, Action.poll]).data.we_are_waiting = 1 ∧
    (exec (init 0 5)
      [Action.poll, Action.poll, Action.worker 0 false, Action.worker 0 true,
        Action.poll]).data.we_are_waiting = 1 := by
  decide

/-- Claim C6: every call of `async_print_impl`, in every state and however it ends,
stores the address of the polled future's own `we_are_waiting` in the notifier
and does not move the future, so that reading the monitored location after the
call reads that flag; under every schedule of `main`, whenever the loop
spins on the monitored location (after a poll that returned RUNNING or
COMPLETE) the read is that of the flag of `print_5`. -/
theorem notifier_points_to_own_flag :
    (∀ (s : Sys) (n : future_notifier),
      (async_print_impl s n).notifier.ptr_to_monitor = some (Addr.we_are_waiting s.ctx) ∧
      deref (async_print_impl s n).sys (async_print_impl s n).notifier.ptr_to_monitor =
        some (async_print_impl s n).sys.data.we_are_waiting) ∧
    (∀ sched ret, (main sched).pc = DriverPc.waiting ret →
      deref (main sched).print_5 (main sched).ntfr.ptr_to_monitor =
        some (main sched).print_5.data.we_are_waiting) := by
  constructor
  · intro s n
    have h := poll_notifier s n
    refine ⟨h.1, ?_⟩
    rw [h.1]
    simp [deref, h.2]
  · intro sched ret hpc
    have h := watching_exec sched main_init watching_init ret hpc
    unfold main at hpc ⊢
    rw [h]
    simp [deref]

/-- Witness of C6: `main` after its first poll. -/
theorem notifier_points_to_own_flag_witness :
    (main [MainAction.driver]).pc = DriverPc.waiting future_state.FUTURE_STATE_RUNNING ∧
    deref (main [MainAction.driver]).print_5 (main [MainAction.driver]).ntfr.ptr_to_monitor =
      some (main [MainAction.driver]).print_5.data.we_are_waiting :=
  ⟨by decide,
    notifier_points_to_own_flag.2 [MainAction.driver] future_state.FUTURE_STATE_RUNNING
      (by decide)⟩

/-- At counter 1 the poll returns RUNNING and keeps the counter and the value;
with a joinable handle (a worker started and not joined) it
starts no worker and keeps the handle, so of the data it can change only the
flag, and it changes nothing when the flag is already true (1); with a handle
that is not joinable it sets the flag and starts one worker. -/
theorem poll_at_one (s : Sys) (n : future_notifier) (hi : s.data.i = 1) :
    (async_print_impl s n).outcome = Outcome.returned future_state.FUTURE_STATE_RUNNING ∧
    (async_print_impl s n).sys.data.i = s.data.i ∧
    (async_print_impl s n).sys.data.value = s.data.value ∧
    (joinable s.data.t = true →
      (async_print_impl s n).sys.threads = s.threads ∧
      (async_print_impl s n).sys.data.t = s.data.t ∧
      (s.data.we_are_waiting = 1 → (async_print_impl s n).sys = s)) ∧
    (joinable s.data.t = false →
      (async_print_impl s n).sys.data.we_are_waiting = 1 ∧
      (async_print_impl s n).sys.threads = s.threads ++ [WorkerPc.sleeping] ∧
      (async_print_impl s n).sys.data.t = some s.threads.length) := by
  obtain ⟨c, ⟨v, i, f, t⟩, th⟩ := s
  simp only at hi
  subst hi
  cases t with
  | none => simp [async_print_impl, joinable, spawn]
  | some k =>
    simp only [async_print_impl, joinable, spawn]
    simp
    intro hf
    exact hf.symm

/-- An instance of `poll_at_one`: after two polls the counter is 1, the handle
is joinable,
the worker is asleep and the flag is 1; the poll made there changes nothing. -/
theorem poll_at_one_witness :
    (exec (init 0 5) [Action.poll, Action.poll]).data.i = 1 ∧
    joinable (exec (init 0 5) [Action.poll, Action.poll]).data.t = true ∧
    (exec (init 0 5) [Action.poll, Action.poll]).data.we_are_waiting = 1 ∧
    (async_print_impl (exec (init 0 5) [Action.poll, Action.poll]) blank).outcome =
      Outcome.returned future_state.FUTURE_STATE_RUNNING ∧
    (async_print_impl (exec (init 0 5) [Action.poll, Action.poll]) blank).sys =
      exec (init 0 5) [Action.poll, Action.poll] :=
  ⟨by decide, by decide, by decide,
    (poll_at_one (exec (init 0 5) [Action.poll, Action.poll]) blank (by decide)).1,
    ((poll_at_one (exec (init 0 5) [Action.poll, Action.poll]) blank
      (by decide)).2.2.2.1 (by decide)).2.2 (by decide)⟩

/-- Claim C7: after two polls and the worker's clearing of the flag (the state
between the worker's two writes) the counter is 1, the handle is joinable and
the flag is false; the poll made there does not start a worker and keeps the
counter, but it writes the flag, which is true again afterwards, so the data
are not left unchanged. -/
theorem poll_at_one_writes_flag :
    (exec (init 0 5) [Action.poll, Action.poll, Action.worker 0 true]).data.i = 1 ∧
    joinable (exec (init 0 5) [Action.poll, Action.poll, Action.worker 0 true]).data.t = true ∧
    (exec (init 0 5) [Action.poll, Action.poll, Action.worker 0 true]).data.we_are_waiting = 0 ∧
    (async_print_impl (exec (init 0 5) [Action.poll, Action.poll, Action.worker 0 true])
      blank).sys.data.we_are_waiting = 1 ∧
    (async_print_impl (exec (init 0 5) [Action.poll, Action.poll, Action.worker 0 true])
      blank).outcome = Outcome.returned future_state.FUTURE_STATE_RUNNING ∧
    (async_print_impl (exec (init 0 5) [Action.poll, Action.poll, Action.worker 0 true])
      blank).sys.data.i = 1 ∧
    (async_print_impl (exec (init 0 5) [Action.poll, Action.poll, Action.worker 0 true])
      blank).sys.threads =
      (exec (init 0 5) [Action.poll, Action.poll, Action.worker 0 true]).threads ∧
    (async_print_impl (exec (init 0 5) [Action.poll, Action.poll, Action.worker 0 true])
      blank).sys.data ≠
      (exec (init 0 5) [Action.poll, Action.poll, Action.worker 0 true]).data := by
  decide

/-- Claim C8: after poll, poll, the worker's clearing of the flag, a third poll and the
worker's increment, the counter is 2 and the only worker has finished, yet the
flag is true; the next poll returns COMPLETE and the flag is still true. -/
theorem flag_true_after_worker_finished :
    (exec (init 0 5) [Action.poll, Action.poll, Action.worker 0 true, Action.poll,
      Action.worker 0 true]).data.i = 2 ∧
    (exec (init 0 5) [Action.poll, Action.poll, Action.worker 0 true, Action.poll,
      Action.worker 0 true]).threads = [WorkerPc.finished] ∧
    (exec (init 0 5) [Action.poll, Action.poll, Action.worker 0 true, Action.poll,
      Action.worker 0 true]).data.we_are_waiting = 1 ∧
    poll_outcome (exec (init 0 5) [Action.poll, Action.poll, Action.worker 0 true, Action.poll,
      Action.worker 0 true]) = Outcome.returned future_state.FUTURE_STATE_COMPLETE ∧
    (exec (init 0 5) [Action.poll, Action.poll, Action.worker 0 true, Action.poll,
      Action.worker 0 true, Action.poll]).data.we_are_waiting = 1 := by
  decide

/-- Claim C9: in every state reached from a future of `async_print` the counter is 0, 1
or 2, every step (poll or worker) leaves it unchanged or raises it by exactly
one, and the poll made there does not reach `assert(0)`. -/
theorem counter_zero_one_two (c v : Nat) (acts : List Action) :
    ((exec (init c v) acts).data.i = 0 ∨ (exec (init c v) acts).data.i = 1 ∨
      (exec (init c v) acts).data.i = 2) ∧
    (∀ a, (step (exec (init c v) acts) a).data.i = (exec (init c v) acts).data.i ∨
      (step (exec (init c v) acts) a).data.i = (exec (init c v) acts).data.i + 1) ∧
    poll_outcome (exec (init c v) acts) ≠ Outcome.assert_failed := by
  have hinv := inv_exec acts _ (inv_init c v)
  exact ⟨inv_counter_range _ hinv, fun a => inv_counter_step _ a hinv,
    (inv_poll_returns_or_throws _ hinv).1⟩

/-- Claim C10: in every state reached from a future of `async_print` the poll never
waits in `join` for an active worker, joins and COMPLETE returns go together
and there is at most one; and where the counter is 2 and no poll has returned
COMPLETE, the one worker has been started, has finished and its handle is
joinable, so that the poll made there joins it and returns COMPLETE. -/
theorem join_after_worker_finished (c v : Nat) (acts : List Action) :
    poll_outcome (exec (init c v) acts) ≠ Outcome.join_blocked ∧
    tally is_join (init c v) acts = tally is_complete (init c v) acts ∧
    tally is_join (init c v) acts ≤ 1 ∧
    ((exec (init c v) acts).data.i = 2 → tally is_complete (init c v) acts = 0 →
      (exec (init c v) acts).data.t = some 0 ∧
      (exec (init c v) acts).threads = [WorkerPc.finished] ∧
      poll_outcome (exec (init c v) acts) =
        Outcome.returned future_state.FUTURE_STATE_COMPLETE ∧
      (step (exec (init c v) acts) Action.poll).data.t = none ∧
      tally is_join (init c v) (acts ++ [Action.poll]) = 1) := by
  have hinv := inv_exec acts _ (inv_init c v)
  have hj := tally_potential is_join past_join join_potential acts (init c v) (inv_init c v)
  have hc := tally_potential is_complete past_join complete_potential acts
    (init c v) (inv_init c v)
  have hle := inv_past_join_le_one (exec (init c v) acts)
  refine ⟨(inv_poll_returns_or_throws _ hinv).2, by omega, by omega, ?_⟩
  intro hi h0
  have hc0 : past_join (init c v) = 0 := rfl
  have hb := inv_before_join _ hinv hi (by omega)
  refine ⟨hb.1, hb.2.1, hb.2.2.1, hb.2.2.2, ?_⟩
  have hj2 := tally_potential is_join past_join join_potential (acts ++ [Action.poll])
    (init c v) (inv_init c v)
  have hfin := (inv_complete_joins _ hinv hb.2.2.1).2
  rw [exec_append] at hj2
  simp only [exec] at hj2
  omega

/-- Witness of C10: the state after poll, poll, worker, worker. -/
theorem join_after_worker_finished_witness :
    (exec (init 0 5) [Action.poll, Action.poll, Action.worker 0 true, Action.worker 0 true]).data.i = 2 ∧
    tally is_complete (init 0 5)
      [Action.poll, Action.poll, Action.worker 0 true, Action.worker 0 true] = 0 ∧
    (exec (init 0 5) [Action.poll, Action.poll, Action.worker 0 true, Action.worker 0 true]).threads =
      [WorkerPc.finished] ∧
    tally is_join (init 0 5)
      ([Action.poll, Action.poll, Action.worker 0 true, Action.worker 0 true] ++ [Action.poll]) = 1 :=
  ⟨by decide, by decide,
    ((join_after_worker_finished 0 5
      [Action.poll, Action.poll, Action.worker 0 true, Action.worker 0 true]).2.2.2
        (by decide) (by decide)).2.1,
    ((join_after_worker_finished 0 5
      [Action.poll, Action.poll, Action.worker 0 true, Action.worker 0 true]).2.2.2
        (by decide) (by decide)).2.2.2.2⟩

end Miniasync
